import Mathlib

/-!
Verification development for the LARS multi-GPU training baseline
(`src/main.py`).  Real-valued tensors are modelled as lists of rationals
(`List ℚ`): every float literal of the source is taken at its exact decimal
value (`0.001 = 1/1000`), and elementwise tensor arithmetic becomes
elementwise list arithmetic.  `torch.norm` (the Euclidean norm) and
`math.cos` are not rational-valued, so the functions that consume them are
parameterised over them (`normF`, `cosf`); every property proved below holds
for an arbitrary such function, and concrete evaluations instantiate them
only on inputs where the chosen rational stand-in agrees with the real
function.
-/

/-- Model of a PyTorch parameter tensor: its number of dimensions (`p.ndim`),
its flattened data, and its gradient (`p.grad`, absent = `None`). -/
structure Param where
  ndim : ℕ
  data : List ℚ
  grad : Option (List ℚ)
deriving DecidableEq, Repr

/-- Per-group hyperparameters of the LARS optimizer, from `LARS.__init__`
(src/main.py lines 40-45). -/
structure GroupCfg where
  lr : ℚ
  weight_decay : ℚ
  momentum : ℚ
  eta : ℚ
  weight_decay_filter : Bool
  lars_adaptation_filter : Bool
deriving DecidableEq, Repr

/-- Transcription of `LARS.exclude_bias_and_norm` (src/main.py lines 48-49):
a parameter is bias/norm-like exactly when its rank is 1. -/
def exclude_bias_and_norm (p : Param) : Bool :=
  p.ndim == 1

/-- Sum of squares of a vector.  `torch.norm` is the Euclidean norm
`sqrt (sqNorm v)`; `sqNorm` agrees with it exactly on every vector whose sum
of squares is 0 or 1, and all concrete vectors fed to it below are of that
kind, so it is a faithful stand-in for `torch.norm` at those inputs. -/
def sqNorm (v : List ℚ) : ℚ :=
  (v.map fun x => x * x).sum

/-- Weight-decay block of `LARS.step` (src/main.py lines 60-61):
`if not g['weight_decay_filter'] or not self.exclude_bias_and_norm(p):
dp = dp.add(p, alpha=g['weight_decay'])`. -/
def applyWeightDecay (g : GroupCfg) (p : Param) (dp : List ℚ) : List ℚ :=
  if !g.weight_decay_filter || !(exclude_bias_and_norm p) then
    List.zipWith (fun d x => d + g.weight_decay * x) dp p.data
  else
    dp

/-- Trust-ratio block of `LARS.step` (src/main.py lines 63-70), with
`normF` standing for `torch.norm`.  `torch.where(param_norm > 0.,
torch.where(update_norm > 0, eta * param_norm / update_norm, one), one)`
selects elementwise on 0-dim tensors, i.e. it is the nested conditional. -/
def applyLarsAdaptation (normF : List ℚ → ℚ) (g : GroupCfg) (p : Param)
    (dp : List ℚ) : List ℚ :=
  if !g.lars_adaptation_filter || !(exclude_bias_and_norm p) then
    let param_norm := normF p.data
    let update_norm := normF dp
    let q := if param_norm > 0 then
        (if update_norm > 0 then g.eta * param_norm / update_norm else 1)
      else 1
    dp.map fun x => x * q
  else
    dp

/-- Per-parameter body of `LARS.step` (src/main.py lines 54-78).  Input: the
parameter and its momentum-buffer entry (`none` when `'mu' not in
param_state`, i.e. first use).  Output: `none` when the gradient is absent
(the `continue`), otherwise the new parameter data and the new momentum
buffer.  The buffer is zero-initialised on first use
(`torch.zeros_like(p)`), then `mu.mul_(momentum).add_(dp)` and
`p.add_(mu, alpha=-lr)`. -/
def larsUpdate (normF : List ℚ → ℚ) (g : GroupCfg) (p : Param)
    (mu0 : Option (List ℚ)) : Option (List ℚ × List ℚ) :=
  match p.grad with
  | none => none
  | some dp0 =>
    let dp1 := applyWeightDecay g p dp0
    let dp2 := applyLarsAdaptation normF g p dp1
    let mu0v := mu0.getD (List.replicate p.data.length 0)
    let mu := List.zipWith (fun m d => g.momentum * m + d) mu0v dp2
    let pNew := List.zipWith (fun x m => x + (-g.lr) * m) p.data mu
    some (pNew, mu)

/-- One parameter group's pass of `LARS.step`: each parameter is paired with
its optimizer-state entry; a parameter whose `larsUpdate` is skipped
(absent gradient) is left untouched, otherwise its data and buffer are
replaced in place. -/
def larsStepGroup (normF : List ℚ → ℚ) (g : GroupCfg)
    (ps : List (Param × Option (List ℚ))) : List (Param × Option (List ℚ)) :=
  ps.map fun pm =>
    match larsUpdate normF g pm.1 pm.2 with
    | none => pm
    | some dm => ({ pm.1 with data := dm.1 }, some dm.2)

/-- Transcription of `adjust_learning_rate` (src/main.py lines 22-35), with `cosf` standing
for `x ↦ math.cos(math.pi * x)`.  `epochs` is `args.epochs`, `loaderLen` is
`len(loader)`, `bs` is `args.bs`, `lrw`/`lrb` are
`args.learning_rate_weights` / `args.learning_rate_biases`.  The result is
the pair of learning rates written to `param_groups[0]` and
`param_groups[1]`; the Python code raises `ZeroDivisionError` when
`max_steps - warmup_steps == 0` in the cosine branch, modelled by `none`
(there is no `m <= 0` guard in the source). -/
def adjust_learning_rate (cosf : ℚ → ℚ) (epochs loaderLen : ℕ) (bs lrw lrb : ℚ)
    (step : ℕ) : Option (ℚ × ℚ) :=
  let max_steps : ℤ := (epochs : ℤ) * (loaderLen : ℤ)
  let warmup_steps : ℤ := 10 * (loaderLen : ℤ)
  let base_lr : ℚ := bs / 256
  if (step : ℤ) < warmup_steps then
    let lr := base_lr * (step : ℚ) / ((warmup_steps : ℚ))
    some (lr * lrw, lr * lrb)
  else
    let s : ℤ := (step : ℤ) - warmup_steps
    let m : ℤ := max_steps - warmup_steps
    if m = 0 then none
    else
      let q : ℚ := (1 / 2) * (1 + cosf ((s : ℚ) / (m : ℚ)))
      let end_lr := base_lr * (1 / 1000)
      let lr := base_lr * q + end_lr * (1 - q)
      some (lr * lrw, lr * lrb)

/-- Modelled from the spec (§4.1 Schedule Function): the pure schedule
mapping the global step to the scalar learning-rate multiplier `lr`, before
the caller applies the per-group multipliers.  Used to state that
`adjust_learning_rate` factors as schedule output times per-group
multiplier. -/
def scheduleLr (cosf : ℚ → ℚ) (epochs loaderLen : ℕ) (bs : ℚ)
    (step : ℕ) : Option ℚ :=
  let max_steps : ℤ := (epochs : ℤ) * (loaderLen : ℤ)
  let warmup_steps : ℤ := 10 * (loaderLen : ℤ)
  let base_lr : ℚ := bs / 256
  if (step : ℤ) < warmup_steps then
    some (base_lr * (step : ℚ) / ((warmup_steps : ℚ)))
  else
    let s : ℤ := (step : ℤ) - warmup_steps
    let m : ℤ := max_steps - warmup_steps
    if m = 0 then none
    else
      let q : ℚ := (1 / 2) * (1 + cosf ((s : ℚ) / (m : ℚ)))
      let end_lr := base_lr * (1 / 1000)
      some (base_lr * q + end_lr * (1 - q))

/-- Operations of one training-step body of the worker loop. -/
inductive TrainOp where
  | forward
  | lossComp
  | zeroGrad
  | backward
  | optStep
deriving DecidableEq, Repr

/-- Order of operations of one training step, transcribed from
src/main.py lines 180-185: `logits = model(train_img)` /
`loss = criterion(logits, train_label)` / `optimizer.zero_grad()` /
`loss.backward()` / `optimizer.step()`. -/
def trainStepOps : List TrainOp :=
  [TrainOp.forward, TrainOp.lossComp, TrainOp.zeroGrad, TrainOp.backward,
   TrainOp.optStep]

/-- Gradient-visible state of one training-step body: the current content of
a parameter's `.grad` accumulator and the gradient value the optimizer step
consumed (if the step has run). -/
structure LoopState where
  grad : ℚ
  gradAtOpt : Option ℚ
deriving DecidableEq, Repr

/-- Semantics of one loop operation on the gradient state: `zeroGrad`
clears the accumulator, `backward` adds the freshly computed gradient
`gNew` into it (PyTorch accumulates), `optStep` consumes the accumulator's
current value; `forward`/`lossComp` do not touch gradients. -/
def runOp (gNew : ℚ) (s : LoopState) : TrainOp → LoopState
  | TrainOp.forward => s
  | TrainOp.lossComp => s
  | TrainOp.zeroGrad => { s with grad := 0 }
  | TrainOp.backward => { s with grad := s.grad + gNew }
  | TrainOp.optStep => { s with gradAtOpt := some s.grad }

/-- Run a list of loop operations in order. -/
def runOps (gNew : ℚ) (s : LoopState) (ops : List TrainOp) : LoopState :=
  ops.foldl (runOp gNew) s

/-- Train-loss value appended to `log["train_loss"]` at epoch end
(src/main.py lines 172-194): the loop enumerates with
`start = epoch * len(train_loader)`, sets `batch_count = step` every
iteration, and records `train_loss / (batch_count + 1)`; `losses` are this
epoch's per-batch `loss.item()` values, so `len(train_loader) =
losses.length` and the final `batch_count` is
`epoch * losses.length + (losses.length - 1)` (or its initial value 0 when
the loader is empty). -/
def trainLossEntry (epoch : ℕ) (losses : List ℚ) : ℚ :=
  let batch_count : ℕ :=
    if losses.length = 0 then 0 else epoch * losses.length + (losses.length - 1)
  losses.sum / ((batch_count : ℚ) + 1)

/-- Modelled from the spec (§3 Epoch Metrics Record): the mean loss over the
epoch's processed batches — "the epoch's loss sum divided by the number of
batches processed in that epoch". -/
def meanLoss (losses : List ℚ) : ℚ :=
  losses.sum / (losses.length : ℚ)

/-- Control skeleton of `main_worker` (src/main.py lines 87-225) as seen by
the coordinator's metrics log: the startup check
`assert args.bs % args.world_size == 0` (line 150) runs before the epoch
loop; only if it passes does the loop run and append one train-loss entry
per epoch.  `epochLosses e` abstracts the per-batch losses observed during
epoch `e` (model, data and DDP transport are external collaborators). -/
def main_worker (bs worldSize epochs : ℕ) (epochLosses : ℕ → List ℚ) :
    Except String (List ℚ) :=
  if bs % worldSize = 0 then
    Except.ok ((List.range epochs).map fun e => trainLossEntry e (epochLosses e))
  else
    Except.error "assert args.bs % args.world_size == 0"

/-- Parameter-group construction (src/main.py lines 109-116): iterate over
`model.parameters()`, appending rank-1 parameters to `param_biases` and all
others to `param_weights`; the groups list is
`[{'params': param_weights}, {'params': param_biases}]`. -/
def partitionParams : List Param → List Param × List Param
  | [] => ([], [])
  | p :: ps =>
    let wb := partitionParams ps
    if p.ndim = 1 then (wb.1, p :: wb.2) else (p :: wb.1, wb.2)

/-- The two parameter groups in index order: index 0 holds `param_weights`,
index 1 holds `param_biases`. -/
def paramGroups (ps : List Param) : List (List Param) :=
  [(partitionParams ps).1, (partitionParams ps).2]

/-! Helper lemmas (shared; none of these is a claim's theorem). -/

theorem zipWith_descent_replicate_zero (c : ℚ) :
    ∀ xs : List ℚ,
      List.zipWith (fun x m => x + c * m) xs (List.replicate xs.length 0) = xs := by
  intro xs
  induction xs with
  | nil => rfl
  | cons a t ih => simp [List.replicate_succ, ih]

theorem zipWith_momentum_replicate_zero (c : ℚ) (n : ℕ) :
    List.zipWith (fun m d => c * m + d) (List.replicate n 0) (List.replicate n 0)
      = List.replicate n 0 := by
  induction n with
  | zero => rfl
  | succ k ih => simp [List.replicate_succ, ih]

theorem zipWith_decay_replicate_zero :
    ∀ xs : List ℚ,
      List.zipWith (fun d x => d + 0 * x) (List.replicate xs.length 0) xs
        = List.replicate xs.length 0 := by
  intro xs
  induction xs with
  | nil => rfl
  | cons a t ih =>
    simp only [List.length_cons, List.replicate_succ, List.zipWith_cons_cons]
    rw [ih]
    norm_num

theorem adjust_eq_scheduleLr_map (cosf : ℚ → ℚ) (epochs loaderLen : ℕ)
    (bs lrw lrb : ℚ) (step : ℕ) :
    adjust_learning_rate cosf epochs loaderLen bs lrw lrb step
      = (scheduleLr cosf epochs loaderLen bs step).map fun l => (l * lrw, l * lrb) := by
  by_cases h1 : (step : ℤ) < 10 * (loaderLen : ℤ)
  · simp [adjust_learning_rate, scheduleLr, h1]
  · by_cases h2 : (epochs : ℤ) * (loaderLen : ℤ) - 10 * (loaderLen : ℤ) = 0
    · simp [adjust_learning_rate, scheduleLr, h1, h2]
    · simp [adjust_learning_rate, scheduleLr, h1, h2]

/-- C1: for every parameter `p` with a present gradient `g`, one LARS
`step()` updates it by exactly: take the momentum buffer `mu` (zeros on
first use, the stored buffer otherwise), set `mu` to `momentum × mu + g`
elementwise, then set `p` to `p − lr × mu` elementwise, where `g` has first
had weight decay applied (`applyWeightDecay`) and then the trust-ratio
scaling applied (`applyLarsAdaptation`), in that fixed order. -/
theorem lars_step_update_order (normF : List ℚ → ℚ) (g : GroupCfg) (p : Param)
    (mu0 : Option (List ℚ)) (dp0 : List ℚ) (h : p.grad = some dp0) :
    larsUpdate normF g p mu0 = some
      (List.zipWith (fun x m => x - g.lr * m) p.data
        (List.zipWith (fun m d => g.momentum * m + d)
          (mu0.getD (List.replicate p.data.length 0))
          (applyLarsAdaptation normF g p (applyWeightDecay g p dp0))),
       List.zipWith (fun m d => g.momentum * m + d)
          (mu0.getD (List.replicate p.data.length 0))
          (applyLarsAdaptation normF g p (applyWeightDecay g p dp0))) := by
  have hf : (fun (x m : ℚ) => x + (-g.lr) * m) = fun (x m : ℚ) => x - g.lr * m := by
    funext x m
    ring
  simp only [larsUpdate, h, hf]

/-- Witness for C1 at a concrete input: parameter of rank 2 with data `[1]`
and gradient `[1]`, fresh momentum state, `lr = 1/100`, `weight_decay = 0`,
`momentum = 9/10`, `eta = 1/2`, both filters on.  The decayed gradient is
`[1]`, the trust ratio is `(1/2)·1/1 = 1/2`, the buffer becomes `[1/2]` and
the parameter `[1 − (1/100)·(1/2)] = [199/200]`. -/
theorem lars_step_update_order_witness :
    larsUpdate sqNorm ⟨1/100, 0, 9/10, 1/2, true, true⟩ ⟨2, [1], some [1]⟩ none
      = some ([199/200], [1/2]) := by
  have h := lars_step_update_order sqNorm ⟨1/100, 0, 9/10, 1/2, true, true⟩
    ⟨2, [1], some [1]⟩ none [1] rfl
  rw [h]
  norm_num [applyWeightDecay, applyLarsAdaptation, exclude_bias_and_norm, sqNorm]

/-- C3: with `weight_decay_filter` enabled, a rank-1 parameter never has the
decay term `weight_decay × p` added to its gradient, while a parameter of
rank > 1 always has it added; with the filter disabled the decay term is
added unconditionally. -/
theorem lars_weight_decay_filter (g : GroupCfg) (p : Param) (dp : List ℚ) :
    (g.weight_decay_filter = true → p.ndim = 1 → applyWeightDecay g p dp = dp)
  ∧ (g.weight_decay_filter = true → 1 < p.ndim →
      applyWeightDecay g p dp
        = List.zipWith (fun d x => d + g.weight_decay * x) dp p.data)
  ∧ (g.weight_decay_filter = false →
      applyWeightDecay g p dp
        = List.zipWith (fun d x => d + g.weight_decay * x) dp p.data) := by
  refine ⟨?_, ?_, ?_⟩
  · intro h1 h2
    simp [applyWeightDecay, exclude_bias_and_norm, h1, h2]
  · intro h1 h2
    simp [applyWeightDecay, exclude_bias_and_norm, h1, ne_of_gt h2]
  · intro h1
    simp [applyWeightDecay, h1]

/-- Witness for C3 at concrete inputs: with `weight_decay = 1` and the
filter on, a rank-1 parameter's gradient `[3]` is untouched while a rank-2
parameter's becomes `[3 + 1·5] = [8]`; with the filter off the rank-1
parameter's gradient also becomes `[8]`. -/
theorem lars_weight_decay_filter_witness :
    applyWeightDecay ⟨1, 1, 0, 0, true, true⟩ ⟨1, [5], none⟩ [3] = [3]
  ∧ applyWeightDecay ⟨1, 1, 0, 0, true, true⟩ ⟨2, [5], none⟩ [3] = [8]
  ∧ applyWeightDecay ⟨1, 1, 0, 0, false, true⟩ ⟨1, [5], none⟩ [3] = [8] := by
  refine ⟨?_, ?_, ?_⟩
  · exact (lars_weight_decay_filter ⟨1, 1, 0, 0, true, true⟩ ⟨1, [5], none⟩ [3]).1
      rfl rfl
  · have h := (lars_weight_decay_filter ⟨1, 1, 0, 0, true, true⟩ ⟨2, [5], none⟩
      [3]).2.1 rfl (by decide)
    rw [h]
    norm_num
  · have h := (lars_weight_decay_filter ⟨1, 1, 0, 0, false, true⟩ ⟨1, [5], none⟩
      [3]).2.2 rfl
    rw [h]
    norm_num

/-- C4: for every parameter where the LARS adaptation applies (the filter is
off, or the parameter is not rank-1): when the parameter norm and the
update norm are both strictly positive the gradient is scaled elementwise
by `eta × pn / un`, and when either norm is zero the result is exactly the
unchanged gradient (the ratio is the neutral 1, no division reaches the
result). -/
theorem lars_trust_ratio (normF : List ℚ → ℚ) (g : GroupCfg) (p : Param)
    (dp : List ℚ) (happ : g.lars_adaptation_filter = false ∨ p.ndim ≠ 1) :
    (0 < normF p.data → 0 < normF dp →
      applyLarsAdaptation normF g p dp
        = dp.map fun x => x * (g.eta * normF p.data / normF dp))
  ∧ ((normF p.data = 0 ∨ normF dp = 0) → applyLarsAdaptation normF g p dp = dp) := by
  have hcond : (!g.lars_adaptation_filter || !(exclude_bias_and_norm p)) = true := by
    rcases happ with h | h
    · simp [h]
    · simp [exclude_bias_and_norm, h]
  constructor
  · intro hpn hun
    simp [applyLarsAdaptation, hcond, hpn, hun]
  · intro hz
    rcases hz with hz | hz
    · simp [applyLarsAdaptation, hcond, hz]
    · by_cases hpn : 0 < normF p.data
      · simp [applyLarsAdaptation, hcond, hpn, hz]
      · simp [applyLarsAdaptation, hcond, hpn]

/-- Witness for C4 at concrete inputs: `eta = 1/2`, rank-2 parameter with
data `[1]`.  For update `[1]` both norms are 1, so the gradient is scaled by
`(1/2)·1/1`, giving `[1/2]`; for update `[0]` the update norm is 0 and the
gradient is returned unchanged. -/
theorem lars_trust_ratio_witness :
    applyLarsAdaptation sqNorm ⟨0, 0, 0, 1/2, true, true⟩ ⟨2, [1], some [1]⟩ [1]
      = [1/2]
  ∧ applyLarsAdaptation sqNorm ⟨0, 0, 0, 1/2, true, true⟩ ⟨2, [1], some [1]⟩ [0]
      = [0] := by
  constructor
  · have h := (lars_trust_ratio sqNorm ⟨0, 0, 0, 1/2, true, true⟩
      ⟨2, [1], some [1]⟩ [1] (Or.inr (by decide))).1 (by norm_num [sqNorm])
      (by norm_num [sqNorm])
    rw [h]
    norm_num [sqNorm]
  · exact (lars_trust_ratio sqNorm ⟨0, 0, 0, 1/2, true, true⟩
      ⟨2, [1], some [1]⟩ [0] (Or.inr (by decide))).2
      (Or.inr (by norm_num [sqNorm]))

/-- C5 counterexample: the claim "for a parameter with zero gradient both
its momentum buffer and its value are unchanged after step()" is false on
the code.  Concrete input: rank-2 parameter with data `[1]`, gradient `[0]`
(present and zero), fresh momentum state, `lr = 1/100`, `weight_decay = 1`,
`momentum = 9/10`, `eta = 1`, both filters on.  The weight-decay block turns
the zero gradient into `[1]`, the trust ratio is 1, so the buffer becomes
`[1] ≠ [0]` and the parameter moves to `[99/100] ≠ [1]`. -/
theorem lars_zero_grad_changes_param :
    larsUpdate sqNorm ⟨1/100, 1, 9/10, 1, true, true⟩ ⟨2, [1], some [0]⟩ none
      = some ([99/100], [1])
  ∧ ((99 : ℚ)/100 ≠ 1) ∧ ((1 : ℚ) ≠ 0) := by
  refine ⟨?_, by norm_num, by norm_num⟩
  norm_num [larsUpdate, applyWeightDecay, applyLarsAdaptation,
    exclude_bias_and_norm, sqNorm]

/-- C5 (amended): a parameter whose gradient is absent is silently skipped
by `step()` (no error, no state change); a parameter with a present
all-zero gradient keeps its value, and its momentum buffer stays zero,
provided the weight-decay term contributes nothing to it (`weight_decay =
0`, or the decay filter excludes it as rank-1) and its momentum buffer is
zero (in particular on first use). -/
theorem lars_noop_cases (normF : List ℚ → ℚ) (g : GroupCfg) (p : Param)
    (mu0 : Option (List ℚ)) :
    (p.grad = none →
      larsUpdate normF g p mu0 = none
      ∧ larsStepGroup normF g [(p, mu0)] = [(p, mu0)])
  ∧ (p.grad = some (List.replicate p.data.length 0) →
      (g.weight_decay = 0 ∨ (g.weight_decay_filter = true ∧ p.ndim = 1)) →
      mu0.getD (List.replicate p.data.length 0) = List.replicate p.data.length 0 →
      larsUpdate normF g p mu0 = some (p.data, List.replicate p.data.length 0)) := by
  constructor
  · intro h
    have h1 : larsUpdate normF g p mu0 = none := by simp [larsUpdate, h]
    exact ⟨h1, by simp [larsStepGroup, h1]⟩
  · intro hg hdec hmu
    have hdp1 : applyWeightDecay g p (List.replicate p.data.length 0)
        = List.replicate p.data.length 0 := by
      rcases hdec with hw | hfnd
      · unfold applyWeightDecay
        split
        · rw [hw]
          exact zipWith_decay_replicate_zero p.data
        · rfl
      · simp [applyWeightDecay, exclude_bias_and_norm, hfnd.1, hfnd.2]
    have hdp2 : applyLarsAdaptation normF g p (List.replicate p.data.length 0)
        = List.replicate p.data.length 0 := by
      unfold applyLarsAdaptation
      split
      · simp [List.map_replicate]
      · rfl
    simp only [larsUpdate, hg]
    rw [hdp1, hdp2, hmu, zipWith_momentum_replicate_zero,
      zipWith_descent_replicate_zero]

/-- Witness for C5 at concrete inputs: a rank-2 parameter with absent
gradient is skipped and left untouched by the group pass; a rank-1
parameter with data `[7]`, zero gradient `[0]` and zero momentum buffer
(decay filtered out) comes out of the update with value `[7]` and buffer
`[0]`, unchanged. -/
theorem lars_noop_cases_witness :
    larsUpdate sqNorm ⟨1/100, 1, 9/10, 1, true, true⟩ ⟨2, [5], none⟩ none = none
  ∧ larsStepGroup sqNorm ⟨1/100, 1, 9/10, 1, true, true⟩ [(⟨2, [5], none⟩, none)]
      = [(⟨2, [5], none⟩, none)]
  ∧ larsUpdate sqNorm ⟨1/100, 1, 9/10, 1, true, true⟩ ⟨1, [7], some [0]⟩ (some [0])
      = some ([7], [0]) := by
  obtain ⟨h1, h2⟩ := (lars_noop_cases sqNorm ⟨1/100, 1, 9/10, 1, true, true⟩
      ⟨2, [5], none⟩ none).1 rfl
  refine ⟨h1, h2, ?_⟩
  exact (lars_noop_cases sqNorm ⟨1/100, 1, 9/10, 1, true, true⟩
      ⟨1, [7], some [0]⟩ (some [0])).2 rfl (Or.inr ⟨rfl, rfl⟩) rfl

/-- C2 counterexample: the claim that the schedule function treats `q` as 1
and returns the base rate when `m = total_steps − warmup_steps ≤ 0` is
false on the code — there is no such guard.  Concrete input: `epochs = 10`,
`len(loader) = 1`, `step = 10 = warmup_steps`, `bs = 256` (so `base_lr =
1`), multipliers 1: `m = 0` and the call divides by zero
(`ZeroDivisionError`, modelled as `none`) instead of returning the base
rate `some (1, 1)`. -/
theorem schedule_divzero_counterexample :
    adjust_learning_rate (fun _ => 1) 10 1 256 1 1 10 = none
  ∧ adjust_learning_rate (fun _ => 1) 10 1 256 1 1 10 ≠ some (1, 1) :=
  ⟨by decide, by decide⟩

/-- C2 (amended): the source has no `m <= 0` guard, and calling the
schedule with `step ≥ warmup_steps` and `total_steps = warmup_steps`
raises `ZeroDivisionError`; however, every step the training loop actually
issues satisfies `step < epochs × len(loader)`, and under that bound the
cosine branch is only reached when `m > 0`, so no loop-issued call divides
by zero (the result is always defined). -/
theorem schedule_loop_no_divzero (cosf : ℚ → ℚ) (epochs loaderLen step : ℕ)
    (bs lrw lrb : ℚ) (hstep : step < epochs * loaderLen) :
    (adjust_learning_rate cosf epochs loaderLen bs lrw lrb step).isSome = true := by
  have hstepZ : (step : ℤ) < (epochs : ℤ) * (loaderLen : ℤ) := by
    exact_mod_cast hstep
  simp only [adjust_learning_rate]
  split
  · rfl
  · rename_i hge
    split
    · rename_i hm
      exfalso
      have h10 : 10 * (loaderLen : ℤ) ≤ (step : ℤ) := le_of_not_lt hge
      linarith
    · rfl

/-- Witness for C2 (amended) at a concrete input: `epochs = 11`,
`len(loader) = 1`, `step = 10` is a loop-issued step (`10 < 11`), reaches
the cosine branch with `m = 1 > 0`, and the schedule returns a value. -/
theorem schedule_loop_no_divzero_witness :
    (adjust_learning_rate (fun _ => 1) 11 1 1 1 1 10).isSome = true :=
  schedule_loop_no_divzero (fun _ => 1) 11 1 10 1 1 1 (by decide)

/-- C6: in warmup mode, the learning rate assigned to each of the two
parameter groups is the product of two independent factors — the pure
schedule output for the global step (`scheduleLr`) times that group's fixed
per-group multiplier (`lrw` for the weight-like group at index 0, `lrb` for
the bias-like group at index 1): `adjust_learning_rate` factors exactly as
schedule × multiplier, for every configuration and step. -/
theorem schedule_group_compose (cosf : ℚ → ℚ) (epochs loaderLen : ℕ)
    (bs lrw lrb : ℚ) (step : ℕ) :
    adjust_learning_rate cosf epochs loaderLen bs lrw lrb step
      = (scheduleLr cosf epochs loaderLen bs step).map fun l => (l * lrw, l * lrb) :=
  adjust_eq_scheduleLr_map cosf epochs loaderLen bs lrw lrb step

/-- C7 counterexample: the claim that within a training step the gradients
are cleared after gradient computation (backward) and before the optimizer
step is false on the code — src/main.py calls `optimizer.zero_grad()`
before `loss.backward()`.  The two orders are observably different: with a
stale gradient 5 and fresh gradient 1, the code's order hands the optimizer
gradient 1, while the claimed order (clear after backward) would hand it
gradient 0. -/
theorem train_step_order_counterexample :
    trainStepOps ≠ [TrainOp.forward, TrainOp.lossComp, TrainOp.backward,
      TrainOp.zeroGrad, TrainOp.optStep]
  ∧ (runOps 1 ⟨5, none⟩ trainStepOps).gradAtOpt = some 1
  ∧ (runOps 1 ⟨5, none⟩ [TrainOp.forward, TrainOp.lossComp, TrainOp.backward,
      TrainOp.zeroGrad, TrainOp.optStep]).gradAtOpt = some 0 := by
  refine ⟨by decide, ?_, ?_⟩
  · norm_num [runOps, trainStepOps, runOp]
  · norm_num [runOps, runOp]

/-- C7 (amended): within every training step the operations occur in the
order forward pass, loss computation, clearing of previous gradients,
gradient computation (backward), optimizer step — clearing happens before
(not after) the backward pass, and consequently the optimizer step consumes
exactly the freshly computed gradient, whatever gradient was left over from
the previous step. -/
theorem train_step_clear_before_backward (g0 gNew : ℚ) :
    trainStepOps = [TrainOp.forward, TrainOp.lossComp, TrainOp.zeroGrad,
      TrainOp.backward, TrainOp.optStep]
  ∧ (runOps gNew ⟨g0, none⟩ trainStepOps).gradAtOpt = some gNew := by
  constructor
  · rfl
  · simp [runOps, trainStepOps, runOp]

/-- C8 divergence witness: the coordinator's recorded train loss for an
epoch is NOT the mean loss over that epoch's batches once `epoch ≥ 1`: the
loop reuses the global step index as `batch_count`
(`enumerate(train_loader, start=epoch * len(train_loader))`), so it divides
the epoch's loss sum by `epoch·len + len` instead of `len`.  With one batch
of loss 1 per epoch, epoch 0 records 1 (the correct mean) but epoch 1
records 1/2 while the mean is 1. -/
theorem train_mean_loss_divergence :
    trainLossEntry 0 [1] = 1
  ∧ meanLoss [1] = 1
  ∧ trainLossEntry 1 [1] = 1/2
  ∧ trainLossEntry 1 [1] ≠ meanLoss [1] := by
  refine ⟨?_, ?_, ?_, ?_⟩
  · norm_num [trainLossEntry]
  · norm_num [meanLoss]
  · norm_num [trainLossEntry]
  · norm_num [trainLossEntry, meanLoss]

/-- C9: when the configured batch size is not evenly divisible by the
worker count, `main_worker` fails at the startup assertion before the epoch
loop: the run produces the assertion error, never a metrics log — no
training step runs and no metrics entry is produced. -/
theorem startup_divisibility_check (bs worldSize epochs : ℕ)
    (epochLosses : ℕ → List ℚ) (h : bs % worldSize ≠ 0) :
    main_worker bs worldSize epochs epochLosses
      = Except.error "assert args.bs % args.world_size == 0"
  ∧ ∀ l, main_worker bs worldSize epochs epochLosses ≠ Except.ok l := by
  constructor
  · simp [main_worker, h]
  · intro l
    simp [main_worker, h]

/-- Witness for C9 at the spec's concrete scenario: batch size 33 with 2
workers fails fast at startup; no epoch metrics are produced. -/
theorem startup_divisibility_check_witness :
    main_worker 33 2 5 (fun _ => [1])
      = Except.error "assert args.bs % args.world_size == 0" :=
  (startup_divisibility_check 33 2 5 (fun _ => [1]) (by decide)).1

theorem mem_partitionParams_fst (q : Param) :
    ∀ ps : List Param, q ∈ (partitionParams ps).1 ↔ q ∈ ps ∧ q.ndim ≠ 1 := by
  intro ps
  induction ps with
  | nil => simp [partitionParams]
  | cons p t ih =>
    by_cases h : p.ndim = 1
    · simp only [partitionParams, h, if_pos]
      rw [ih]
      constructor
      · rintro ⟨hq, hnd⟩
        exact ⟨List.mem_cons_of_mem p hq, hnd⟩
      · rintro ⟨hq, hnd⟩
        rcases List.mem_cons.mp hq with rfl | hq2
        · exact absurd h hnd
        · exact ⟨hq2, hnd⟩
    · simp only [partitionParams, h, if_neg, if_false]
      constructor
      · intro hq
        rcases List.mem_cons.mp hq with rfl | hq2
        · exact ⟨List.mem_cons_self q t, h⟩
        · obtain ⟨ha, hb⟩ := ih.mp hq2
          exact ⟨List.mem_cons_of_mem p ha, hb⟩
      · rintro ⟨hq, hnd⟩
        rcases List.mem_cons.mp hq with rfl | hq2
        · exact List.mem_cons_self q (partitionParams t).1
        · exact List.mem_cons_of_mem p (ih.mpr ⟨hq2, hnd⟩)

theorem mem_partitionParams_snd (q : Param) :
    ∀ ps : List Param, q ∈ (partitionParams ps).2 ↔ q ∈ ps ∧ q.ndim = 1 := by
  intro ps
  induction ps with
  | nil => simp [partitionParams]
  | cons p t ih =>
    by_cases h : p.ndim = 1
    · simp only [partitionParams, h, if_pos]
      constructor
      · intro hq
        rcases List.mem_cons.mp hq with rfl | hq2
        · exact ⟨List.mem_cons_self q t, h⟩
        · obtain ⟨ha, hb⟩ := ih.mp hq2
          exact ⟨List.mem_cons_of_mem p ha, hb⟩
      · rintro ⟨hq, hnd⟩
        rcases List.mem_cons.mp hq with rfl | hq2
        · exact List.mem_cons_self q (partitionParams t).2
        · exact List.mem_cons_of_mem p (ih.mpr ⟨hq2, hnd⟩)
    · simp only [partitionParams, h, if_neg, if_false]
      rw [ih]
      constructor
      · rintro ⟨hq, hnd⟩
        exact ⟨List.mem_cons_of_mem p hq, hnd⟩
      · rintro ⟨hq, hnd⟩
        rcases List.mem_cons.mp hq with rfl | hq2
        · exact absurd hnd h
        · exact ⟨hq2, hnd⟩

/-- C10: group construction and learning-rate assignment rely on a fixed
group ordering.  For a model whose parameters all have rank ≥ 1 (as here):
the parameters are partitioned into exactly two groups, the weight-like
group (rank > 1) at index 0 and the bias/norm-like group (rank 1) at index
1 of `paramGroups`; every parameter belongs to exactly one group; and every
learning-rate assignment writes schedule × weights-multiplier into the
component for group index 0 and schedule × biases-multiplier into the
component for group index 1. -/
theorem param_group_order_invariant (ps : List Param)
    (h : ∀ p ∈ ps, 1 ≤ p.ndim) :
    paramGroups ps = [(partitionParams ps).1, (partitionParams ps).2]
  ∧ (∀ q, q ∈ (partitionParams ps).1 ↔ q ∈ ps ∧ 1 < q.ndim)
  ∧ (∀ q, q ∈ (partitionParams ps).2 ↔ q ∈ ps ∧ q.ndim = 1)
  ∧ (∀ q ∈ ps, ¬(q ∈ (partitionParams ps).1 ∧ q ∈ (partitionParams ps).2))
  ∧ (∀ cosf : ℚ → ℚ, ∀ epochs loaderLen step : ℕ, ∀ bs lrw lrb l0 l1 : ℚ,
      adjust_learning_rate cosf epochs loaderLen bs lrw lrb step = some (l0, l1) →
      ∃ lr, scheduleLr cosf epochs loaderLen bs step = some lr
        ∧ l0 = lr * lrw ∧ l1 = lr * lrb) := by
  refine ⟨rfl, ?_, fun q => mem_partitionParams_snd q ps, ?_, ?_⟩
  · intro q
    rw [mem_partitionParams_fst]
    constructor
    · rintro ⟨hq, hnd⟩
      exact ⟨hq, lt_of_le_of_ne (h q hq) (Ne.symm hnd)⟩
    · rintro ⟨hq, hnd⟩
      exact ⟨hq, ne_of_gt hnd⟩
  · intro q hq hboth
    have h1 := (mem_partitionParams_fst q ps).mp hboth.1
    have h2 := (mem_partitionParams_snd q ps).mp hboth.2
    exact h1.2 h2.2
  · intro cosf epochs loaderLen step bs lrw lrb l0 l1 hadj
    rw [adjust_eq_scheduleLr_map] at hadj
    cases hs : scheduleLr cosf epochs loaderLen bs step with
    | none =>
      rw [hs] at hadj
      simp at hadj
    | some lr =>
      rw [hs] at hadj
      have h2 : (lr * lrw, lr * lrb) = (l0, l1) := Option.some.inj hadj
      exact ⟨lr, rfl, (congrArg Prod.fst h2).symm, (congrArg Prod.snd h2).symm⟩

/-- Witness for C10 at concrete inputs: three parameters of ranks 4, 1, 2
are split into the weight group `[rank 4, rank 2]` at index 0 and the bias
group `[rank 1]` at index 1, and a concrete warmup-branch call of the
learning-rate assignment factors through the schedule output. -/
theorem param_group_order_invariant_witness :
    paramGroups [⟨4, [1], none⟩, ⟨1, [2], none⟩, ⟨2, [3], none⟩]
      = [[⟨4, [1], none⟩, ⟨2, [3], none⟩], [⟨1, [2], none⟩]]
  ∧ (⟨4, [1], none⟩ : Param) ∈
      (partitionParams [⟨4, [1], none⟩, ⟨1, [2], none⟩, ⟨2, [3], none⟩]).1 := by
  have h := param_group_order_invariant
    [⟨4, [1], none⟩, ⟨1, [2], none⟩, ⟨2, [3], none⟩] (by decide)
  constructor
  · rw [h.1]
    decide
  · exact (h.2.1 ⟨4, [1], none⟩).mpr ⟨by decide, by decide⟩
